import Mathlib

/-!
Verification of `pause_on_voice.py` (a voice-activity detector that taps a
key on sustained speech onset).

The source is a single Python file.  Its core is a per-frame loop in `main`:

* warm-up: `baseline_db = min(baseline_db, db)` until `ADAPT_SECS` have
  elapsed, never triggering (`continue`);
* steady: `baseline_db = alpha*baseline_db + (1-alpha)*db`, classify
  `is_speech = db >= baseline_db + BOOST_DB and lo <= zcr <= hi`,
  update the `speech_run`/`silence_run` counters, and fire a key tap when
  `speech_run >= ONSET_FRAMES and now - last_press > PRESS_COOLDOWN`.

The embedding below models one iteration of that loop as `step`, a pure
function on an explicit `DetState`, and the loop itself as `runFrom` over a
list of frame observations.  Energy (dB) and zero-crossing rate are computed
by `frame_features` from the audio samples via transcendental functions
(`log10`, `sqrt`) and an IIR filter with irrational Butterworth
coefficients; the detector model therefore takes the two feature values of
each frame as rational inputs (`FrameIn`), which is all the detector code
ever reads.  `time.time()` is modelled by a per-frame timestamp `now`
(the loop body reads the clock during warm-up and at the trigger check of
the same iteration; a single per-frame instant covers both reads), and the
outcome of `keyboard.press_and_release` by a per-frame flag `sinkOk`
(`true` = the call returns, `false` = it raises and the `except` branch
runs, skipping the `last_press`/`speech_run` updates).

The zero-crossing computation, the block-chunking loop and the
`lfilter`-based bandpass are modelled separately over `List ℚ` / `List ℤ`,
faithful to their integer/sign-level structure.
-/

set_option maxRecDepth 100000

namespace PauseOnVoice

/-- Configuration constants of the script (module-level in the source). -/
structure Config where
  cooldown : ℚ
  onset : ℕ
  release : ℕ
  boost : ℚ
  zcrLo : ℚ
  zcrHi : ℚ
  alpha : ℚ
  adapt : ℚ
deriving DecidableEq

/-- The literal constants of the source: `PRESS_COOLDOWN = 2.5`,
`ONSET_FRAMES = 4`, `RELEASE_FRAMES = 8`, `BOOST_DB = 12.0`,
`ZCR_RANGE = (0.02, 0.20)`, `baseline_alpha = 0.995`, `ADAPT_SECS = 2.0`. -/
def defaultConfig : Config :=
  { cooldown := 5/2, onset := 4, release := 8, boost := 12,
    zcrLo := 1/50, zcrHi := 1/5, alpha := 199/200, adapt := 2 }

/-- Per-frame observation: the two features computed by `frame_features`,
the clock value during this loop iteration, and whether the key-press call
would succeed on this iteration. -/
structure FrameIn where
  db : ℚ
  zcr : ℚ
  now : ℚ
  sinkOk : Bool
deriving DecidableEq

/-- The mutable module-level detector state of the script. -/
structure DetState where
  lastPress : ℚ
  speechRun : ℕ
  silenceRun : ℕ
  haveBaseline : Bool
  baselineDb : ℚ
deriving DecidableEq

/-- Initial values: `last_press = 0.0`, `speech_run = 0`, `silence_run = 0`,
`have_baseline = False`, `baseline_db = -60.0`. -/
def initState : DetState :=
  { lastPress := 0, speechRun := 0, silenceRun := 0,
    haveBaseline := false, baselineDb := -60 }

/-- Steady-phase baseline update (line 86):
`baseline_db = baseline_alpha * baseline_db + (1 - baseline_alpha) * db`. -/
def newBaseline (cfg : Config) (b db : ℚ) : ℚ :=
  cfg.alpha * b + (1 - cfg.alpha) * db

/-- Speech classification (line 89):
`(db >= baseline_db + BOOST_DB) and (ZCR_RANGE[0] <= zcr <= ZCR_RANGE[1])`,
evaluated against the already-updated baseline `b`. -/
def isSpeech (cfg : Config) (b : ℚ) (f : FrameIn) : Bool :=
  decide (b + cfg.boost ≤ f.db) && decide (cfg.zcrLo ≤ f.zcr) && decide (f.zcr ≤ cfg.zcrHi)

/-- Run-counter update (lines 91-96).  Returns `(speech_run, silence_run)`
after the frame: on speech, `speech_run += 1; silence_run = 0`; otherwise
`silence_run += 1` and `speech_run` is zeroed only when
`silence_run >= RELEASE_FRAMES`. -/
def updateRuns (cfg : Config) (sp : Bool) (speechRun silenceRun : ℕ) : ℕ × ℕ :=
  if sp then (speechRun + 1, 0)
  else (if cfg.release ≤ silenceRun + 1 then 0 else speechRun, silenceRun + 1)

/-- Classification of a frame against the state's baseline after the
steady-phase EWMA update, as the loop computes it. -/
def classify (cfg : Config) (s : DetState) (f : FrameIn) : Bool :=
  isSpeech cfg (newBaseline cfg s.baselineDb f.db) f

/-- Result of one loop iteration: the new state, and whether this iteration
attempted a trigger delivery (reached `keyboard.press_and_release`). -/
structure StepOut where
  state : DetState
  fired : Bool
deriving DecidableEq

/-- One iteration of the frame loop (lines 76-107) on one frame.

Warm-up branch (lines 79-83): take the min of the baseline and this frame's
dB, flip `have_baseline` once `now - start_ts >= ADAPT_SECS`, and `continue`
without triggering.

Steady branch (lines 85-107): EWMA baseline update, classification, run
counters, then the trigger check `speech_run >= ONSET_FRAMES and
(now - last_press) > PRESS_COOLDOWN`.  On a trigger attempt with a working
sink, `last_press = now` and `speech_run = 0`; if the key press raises, the
`except` branch leaves both untouched. -/
def step (cfg : Config) (startTs : ℚ) (s : DetState) (f : FrameIn) : StepOut :=
  if s.haveBaseline then
    let b := newBaseline cfg s.baselineDb f.db
    let sp := isSpeech cfg b f
    let rs := updateRuns cfg sp s.speechRun s.silenceRun
    if cfg.onset ≤ rs.1 ∧ cfg.cooldown < f.now - s.lastPress then
      if f.sinkOk then
        ⟨⟨f.now, 0, rs.2, true, b⟩, true⟩
      else
        ⟨⟨s.lastPress, rs.1, rs.2, true, b⟩, true⟩
    else
      ⟨⟨s.lastPress, rs.1, rs.2, true, b⟩, false⟩
  else
    ⟨⟨s.lastPress, s.speechRun, s.silenceRun,
      decide (cfg.adapt ≤ f.now - startTs), min s.baselineDb f.db⟩, false⟩

/-- The frame loop over a list of frames: final state, plus one Boolean per
frame recording whether that frame attempted a trigger delivery. -/
def runFrom (cfg : Config) (startTs : ℚ) : DetState → List FrameIn → DetState × List Bool
  | s, [] => (s, [])
  | s, f :: fs =>
    let o := step cfg startTs s f
    let r := runFrom cfg startTs o.state fs
    (r.1, o.fired :: r.2)

/-- Baseline value after folding the steady-phase EWMA update over a list of
frames. -/
def ewmaDb (cfg : Config) (b : ℚ) (fs : List FrameIn) : ℚ :=
  fs.foldl (fun b f => newBaseline cfg b f.db) b

/-- Every frame of the list is classified as speech against the baseline as
it evolves through the steady-phase EWMA updates starting from `b`. -/
def allSpeech (cfg : Config) (b : ℚ) : List FrameIn → Bool
  | [] => true
  | f :: fs =>
    isSpeech cfg (newBaseline cfg b f.db) f && allSpeech cfg (newBaseline cfg b f.db) fs

/-- Every frame of the list is classified as non-speech against the baseline
as it evolves through the steady-phase EWMA updates starting from `b`. -/
def allSilence (cfg : Config) (b : ℚ) : List FrameIn → Bool
  | [] => true
  | f :: fs =>
    !isSpeech cfg (newBaseline cfg b f.db) f && allSilence cfg (newBaseline cfg b f.db) fs

/-! ## Bandpass filter (lines 28-36)

`bandpass(x) = lfilter(B, A, x)` where `B, A = butter(4, [lo/nyq, hi/nyq],
btype='band')`.  The Butterworth coefficients are irrational floats, so the
model keeps the coefficient vectors `b`, `a` as parameters (with `a` in the
normalized form `a[0] = 1` that `butter` returns) and embeds the
`lfilter` recurrence itself: the direct-form-II-transposed filter
`y[n] = b[0]*x[n] + z[0][n-1]`,
`z[i][n] = b[i+1]*x[n] + z[i+1][n-1] - a[i+1]*y[n]`,
started from an all-zero delay line on every call — `lfilter` is called with
no `zi` argument, so each call is independent of previous calls. -/

/-- One sample through the direct-form-II-transposed recurrence: output and
the new delay line. -/
def dfStep (b a z : List ℚ) (xn : ℚ) : ℚ × List ℚ :=
  let y := b.headD 0 * xn + z.headD 0
  (y, (List.range (a.length - 1)).map
        (fun i => b.getD (i+1) 0 * xn + z.getD (i+1) 0 - a.getD (i+1) 0 * y))

/-- The filter recurrence over a sample list from delay line `z`: the output
samples and the final delay line. -/
def lfilterZ (b a : List ℚ) : List ℚ → List ℚ → List ℚ × List ℚ
  | z, [] => ([], z)
  | z, xn :: xs =>
    let p := dfStep b a z xn
    let r := lfilterZ b a p.2 xs
    (p.1 :: r.1, r.2)

/-- Model of `scipy.signal.lfilter(b, a, x)` called with no initial
conditions: the delay line starts at zero. -/
def lfilter (b a x : List ℚ) : List ℚ :=
  (lfilterZ b a (List.replicate (a.length - 1) 0) x).1

/-- The script's `bandpass` (line 35): one plain `lfilter` call per input. -/
def bandpass (b a x : List ℚ) : List ℚ := lfilter b a x

/-- What the frame loop does to a sequence of frames: `bandpass` is called
frame by frame (inside `frame_features`), each call starting from the
all-zero delay line. -/
def framesFiltered (b a : List ℚ) (frames : List (List ℚ)) : List (List ℚ) :=
  frames.map (bandpass b a)

/-- Modelled from the spec: the streaming filter the spec mandates in its
data model, in which the delay-line memory (`FilterState`) persists across
frames — each frame is filtered from the delay line left by the previous
frame.  This component is not in the source; it is the spec side of the
comparison for the filter-state claim. -/
def framesFilteredStateful (b a : List ℚ) (frames : List (List ℚ)) : List (List ℚ) :=
  (frames.foldl
    (fun acc fr =>
      let r := lfilterZ b a acc.2 fr
      (acc.1 ++ [r.1], r.2))
    (([] : List (List ℚ)), List.replicate (a.length - 1) (0:ℚ))).1

/-! ## Block chunking (lines 69-74)

Each dequeued block is sliced by `while offset + BLOCK <= data.size`, taking
consecutive `BLOCK`-sized frames; whatever is left after the loop is never
stored, and the next iteration of the outer loop starts from a fresh block. -/

/-- The frame length: `BLOCK = int(SAMPLE_RATE * FRAME_MS / 1000)`. -/
def BLOCK : ℕ := 16000 * 30 / 1000

/-- The chunking loop on one block, written with explicit fuel so that it is
structurally recursive (each loop iteration consumes at least one sample, so
`data.length` units of fuel always suffice): successive `n`-sized frames
while at least `n` samples remain; the trailing remainder produces no
frame. -/
def chunkGo (n : ℕ) : ℕ → List ℤ → List (List ℤ)
  | 0, _ => []
  | fuel + 1, data =>
    if 0 < n ∧ n ≤ data.length then
      data.take n :: chunkGo n fuel (data.drop n)
    else []

/-- The chunking loop on one block (`while offset + BLOCK <= data.size`). -/
def chunkFrames (n : ℕ) (data : List ℤ) : List (List ℤ) :=
  chunkGo n data.length data

/-! ## Zero-crossing rate (lines 47-50)

`signs = np.sign(xf); zc = np.mean(signs[:-1] != signs[1:])` when the frame
has more than one sample, else `0.0`.  `np.sign` is three-valued: `-1`, `0`,
`1`, with an exact zero keeping its own sign value `0`.  The mean of the
boolean array is the number of `True` entries over the number of adjacent
pairs. -/

/-- Model of `np.sign`: `-1` for negatives, `0` for zero, `1` for
positives. -/
def npSign (x : ℚ) : ℚ := if x < 0 then -1 else if x = 0 then 0 else 1

/-- The zero-crossing-rate feature of a (filtered) frame, as
`frame_features` computes it. -/
def zcrOf (xs : List ℚ) : ℚ :=
  if 1 < xs.length then
    ((List.zipWith (fun a b => decide (npSign a ≠ npSign b)) xs xs.tail).count true : ℚ)
      / ((xs.length : ℚ) - 1)
  else 0

/-- Modelled from the spec (the formulation under check): the fraction of
adjacent pairs whose signs differ with the sign of `0` treated as
non-negative, i.e. grouped with the positive values. -/
def signNonneg (x : ℚ) : ℚ := if x < 0 then -1 else 1

/-- Modelled from the spec (the formulation under check): zero-crossing rate
with a two-valued sign in which `0` counts as positive. -/
def zcrSpecNonneg (xs : List ℚ) : ℚ :=
  if 1 < xs.length then
    ((List.zipWith (fun a b => decide (signNonneg a ≠ signNonneg b)) xs xs.tail).count true : ℚ)
      / ((xs.length : ℚ) - 1)
  else 0

/-- Modelled from the spec as amended: the fraction of adjacent sample pairs
whose three-valued signs (`-1` / `0` / `1`, an exactly-zero sample keeping
its own sign class) differ, written independently over the list of adjacent
pairs. -/
def zcrSpecThreeValued (xs : List ℚ) : ℚ :=
  if 1 < xs.length then
    (((xs.zip xs.tail).countP (fun p => decide (npSign p.1 ≠ npSign p.2))) : ℚ)
      / ((xs.length : ℚ) - 1)
  else 0

/-! ## A concrete run of the detector

Nine frames from process start (`start_ts = 0`): two warm-up frames, five
speech frames (the fifth and sixth frames of the whole run are
cooldown-suppressed trigger candidates, since `last_press` starts at `0.0`
and their times are within `PRESS_COOLDOWN` of it), one quiet dropout frame
at `t = 2.6` — at which the cooldown has just expired — and one more speech
frame. -/

/-- The concrete frame sequence described above. -/
def cexFrames : List FrameIn :=
  [ ⟨-60, 0, 0, true⟩,
    ⟨-60, 0, 2, true⟩,
    ⟨0, 1/10, 21/10, true⟩,
    ⟨0, 1/10, 22/10, true⟩,
    ⟨0, 1/10, 23/10, true⟩,
    ⟨0, 1/10, 24/10, true⟩,
    ⟨0, 1/10, 25/10, true⟩,
    ⟨-100, 0, 26/10, true⟩,
    ⟨0, 1/10, 27/10, true⟩ ]

example :
    (runFrom defaultConfig 0 initState cexFrames).2 =
      [false, false, false, false, false, false, false, true, false] := by
  with_unfolding_all decide

/-! ## Concrete inputs used by the closed instances below -/

/-- A detector state as it stands right after warm-up: baseline settled at
`-60` dB, counters clear, no press yet. -/
def postWarmState : DetState := ⟨0, 0, 0, true, -60⟩

/-- Three loud speech frames leading up to an onset. -/
def w1Pre : List FrameIn :=
  [⟨0, 1/10, 26/10, true⟩, ⟨0, 1/10, 27/10, true⟩, ⟨0, 1/10, 28/10, true⟩]

/-- The frame at which `speech_run` first reaches `ONSET_FRAMES`. -/
def w1Trig : FrameIn := ⟨0, 1/10, 29/10, true⟩

/-- Two further speech frames, both within the cooldown of the trigger. -/
def w1Post : List FrameIn := [⟨0, 1/10, 3, true⟩, ⟨0, 1/10, 31/10, true⟩]

/-- A state mid-utterance: three speech frames accumulated. -/
def accum3State : DetState := ⟨0, 3, 0, true, -60⟩

/-- A state mid-utterance: five speech frames accumulated. -/
def accum5State : DetState := ⟨0, 5, 0, true, -60⟩

/-- A loud speech frame at `t = 3` whose key press succeeds. -/
def fireFrame : FrameIn := ⟨0, 1/10, 3, true⟩

/-- A loud speech frame at `t = 10` whose key press raises. -/
def failFrame : FrameIn := ⟨0, 1/10, 10, false⟩

/-- A quiet frame: classified non-speech against any baseline near `-60`. -/
def quietFrame : FrameIn := ⟨-100, 0, 1, true⟩

/-- Eight consecutive quiet frames (`RELEASE_FRAMES` of them), early enough
that the cooldown from `last_press = 0` is still active. -/
def quietRun : List FrameIn :=
  [⟨-100, 0, 1/10, true⟩, ⟨-100, 0, 2/10, true⟩, ⟨-100, 0, 3/10, true⟩,
   ⟨-100, 0, 4/10, true⟩, ⟨-100, 0, 5/10, true⟩, ⟨-100, 0, 6/10, true⟩,
   ⟨-100, 0, 7/10, true⟩, ⟨-100, 0, 8/10, true⟩]

/-- Two speech frames following `fireFrame` within its cooldown. -/
def w2Post : List FrameIn := [⟨0, 1/10, 31/10, true⟩, ⟨0, 1/10, 11/2, true⟩]

/-- Three warm-up-period frames (all earlier than `ADAPT_SECS` after start),
one of them loud. -/
def warmFrames : List FrameIn :=
  [⟨-70, 0, 1/10, true⟩, ⟨0, 1/10, 2/10, true⟩, ⟨-65, 0, 3/10, true⟩]

/-- A single loud warm-up frame: its energy (`0` dB) is well above the
initial `-60` dB baseline value. -/
def loudWarmFrame : FrameIn := ⟨0, 1/10, 1, true⟩

/-! ## Basic lemmas about the step and the loop -/

lemma runFrom_nil (cfg : Config) (ts : ℚ) (s : DetState) :
    runFrom cfg ts s [] = (s, []) := rfl

lemma runFrom_cons (cfg : Config) (ts : ℚ) (s : DetState) (f : FrameIn) (fs : List FrameIn) :
    runFrom cfg ts s (f :: fs) =
      ((runFrom cfg ts (step cfg ts s f).state fs).1,
       (step cfg ts s f).fired :: (runFrom cfg ts (step cfg ts s f).state fs).2) := rfl

lemma runFrom_append (cfg : Config) (ts : ℚ) :
    ∀ (xs ys : List FrameIn) (s : DetState),
    runFrom cfg ts s (xs ++ ys) =
      ((runFrom cfg ts (runFrom cfg ts s xs).1 ys).1,
       (runFrom cfg ts s xs).2 ++ (runFrom cfg ts (runFrom cfg ts s xs).1 ys).2) := by
  intro xs
  induction xs with
  | nil => intro ys s; rfl
  | cons f xs ih =>
    intro ys s
    simp only [List.cons_append, runFrom_cons, ih]

lemma step_steady (cfg : Config) (ts : ℚ) (s : DetState) (f : FrameIn)
    (hb : s.haveBaseline = true) :
    step cfg ts s f =
      (if cfg.onset ≤ (updateRuns cfg (classify cfg s f) s.speechRun s.silenceRun).1 ∧
          cfg.cooldown < f.now - s.lastPress then
        if f.sinkOk then
          ⟨⟨f.now, 0, (updateRuns cfg (classify cfg s f) s.speechRun s.silenceRun).2, true,
            newBaseline cfg s.baselineDb f.db⟩, true⟩
        else
          ⟨⟨s.lastPress, (updateRuns cfg (classify cfg s f) s.speechRun s.silenceRun).1,
            (updateRuns cfg (classify cfg s f) s.speechRun s.silenceRun).2, true,
            newBaseline cfg s.baselineDb f.db⟩, true⟩
      else
        ⟨⟨s.lastPress, (updateRuns cfg (classify cfg s f) s.speechRun s.silenceRun).1,
          (updateRuns cfg (classify cfg s f) s.speechRun s.silenceRun).2, true,
          newBaseline cfg s.baselineDb f.db⟩, false⟩) := by
  unfold step classify
  rw [hb]
  simp only [if_true]

lemma step_warm (cfg : Config) (ts : ℚ) (s : DetState) (f : FrameIn)
    (hb : s.haveBaseline = false) :
    step cfg ts s f =
      ⟨⟨s.lastPress, s.speechRun, s.silenceRun,
        decide (cfg.adapt ≤ f.now - ts), min s.baselineDb f.db⟩, false⟩ := by
  unfold step
  rw [hb]
  simp only [Bool.false_eq_true, if_false]

lemma step_suppressed (cfg : Config) (ts : ℚ) (s : DetState) (f : FrameIn)
    (h : f.now - s.lastPress ≤ cfg.cooldown) :
    (step cfg ts s f).fired = false ∧ (step cfg ts s f).state.lastPress = s.lastPress := by
  by_cases hb : s.haveBaseline
  · rw [step_steady cfg ts s f hb]
    have hnc : ¬ (cfg.onset ≤ (updateRuns cfg (classify cfg s f) s.speechRun s.silenceRun).1 ∧
        cfg.cooldown < f.now - s.lastPress) := by
      rintro ⟨-, hlt⟩
      exact absurd h (not_le.mpr hlt)
    rw [if_neg hnc]
    exact ⟨rfl, rfl⟩
  · rw [step_warm cfg ts s f (Bool.not_eq_true _ ▸ hb)]
    exact ⟨rfl, rfl⟩

lemma runFrom_no_fire (cfg : Config) (ts : ℚ) :
    ∀ (fs : List FrameIn) (s : DetState),
    (∀ f ∈ fs, f.now - s.lastPress ≤ cfg.cooldown) →
    (runFrom cfg ts s fs).1.lastPress = s.lastPress ∧
    (runFrom cfg ts s fs).2 = List.replicate fs.length false := by
  intro fs
  induction fs with
  | nil => intro s _; exact ⟨rfl, rfl⟩
  | cons f fs ih =>
    intro s h
    have hstep := step_suppressed cfg ts s f (h f (List.mem_cons_self f fs))
    have hrest := ih (step cfg ts s f).state (by
      intro g hg
      rw [hstep.2]
      exact h g (List.mem_cons_of_mem f hg))
    rw [runFrom_cons]
    refine ⟨by rw [hrest.1, hstep.2], ?_⟩
    simp only [List.length_cons, List.replicate_succ, hstep.1, hrest.2]

lemma step_fire (cfg : Config) (ts : ℚ) (s : DetState) (f : FrameIn)
    (hb : s.haveBaseline = true) (hsp : classify cfg s f = true)
    (hons : cfg.onset ≤ s.speechRun + 1) (hcd : cfg.cooldown < f.now - s.lastPress)
    (hok : f.sinkOk = true) :
    step cfg ts s f =
      ⟨⟨f.now, 0, 0, true, newBaseline cfg s.baselineDb f.db⟩, true⟩ := by
  rw [step_steady cfg ts s f hb, hsp]
  have hr : updateRuns cfg true s.speechRun s.silenceRun = (s.speechRun + 1, 0) := rfl
  rw [hr, if_pos ⟨hons, hcd⟩, hok, if_pos rfl]

lemma step_fired_iff (cfg : Config) (ts : ℚ) (s : DetState) (f : FrameIn) :
    (step cfg ts s f).fired = true ↔
      s.haveBaseline = true ∧
      cfg.onset ≤ (updateRuns cfg (classify cfg s f) s.speechRun s.silenceRun).1 ∧
      cfg.cooldown < f.now - s.lastPress := by
  by_cases hb : s.haveBaseline
  · rw [step_steady cfg ts s f hb]
    by_cases hc : cfg.onset ≤ (updateRuns cfg (classify cfg s f) s.speechRun s.silenceRun).1 ∧
        cfg.cooldown < f.now - s.lastPress
    · rw [if_pos hc]
      by_cases hok : f.sinkOk
      · rw [if_pos hok]; simp [hb, hc]
      · rw [if_neg hok]; simp [hb, hc]
    · rw [if_neg hc]; simp [hb, hc]
  · rw [step_warm cfg ts s f (Bool.not_eq_true _ ▸ hb)]
    simp [hb]

lemma step_fired_ok_lastPress (cfg : Config) (ts : ℚ) (s : DetState) (f : FrameIn)
    (hf : (step cfg ts s f).fired = true) (hok : f.sinkOk = true) :
    (step cfg ts s f).state.lastPress = f.now ∧ (step cfg ts s f).state.speechRun = 0 := by
  obtain ⟨hb, hc⟩ := (step_fired_iff cfg ts s f).mp hf
  rw [step_steady cfg ts s f hb, if_pos hc, hok, if_pos rfl]
  exact ⟨rfl, rfl⟩

lemma step_sink_fail (cfg : Config) (ts : ℚ) (s : DetState) (f : FrameIn)
    (hb : s.haveBaseline = true) (hko : f.sinkOk = false) :
    (step cfg ts s f).state =
      ⟨s.lastPress, (updateRuns cfg (classify cfg s f) s.speechRun s.silenceRun).1,
       (updateRuns cfg (classify cfg s f) s.speechRun s.silenceRun).2, true,
       newBaseline cfg s.baselineDb f.db⟩ := by
  rw [step_steady cfg ts s f hb]
  by_cases hc : cfg.onset ≤ (updateRuns cfg (classify cfg s f) s.speechRun s.silenceRun).1 ∧
      cfg.cooldown < f.now - s.lastPress
  · rw [if_pos hc, hko]
    simp only [Bool.false_eq_true, if_false]
  · rw [if_neg hc]

lemma step_no_fire_state (cfg : Config) (ts : ℚ) (s : DetState) (f : FrameIn)
    (hb : s.haveBaseline = true) (hnf : (step cfg ts s f).fired = false) :
    (step cfg ts s f).state =
      ⟨s.lastPress, (updateRuns cfg (classify cfg s f) s.speechRun s.silenceRun).1,
       (updateRuns cfg (classify cfg s f) s.speechRun s.silenceRun).2, true,
       newBaseline cfg s.baselineDb f.db⟩ := by
  have hc : ¬ (cfg.onset ≤ (updateRuns cfg (classify cfg s f) s.speechRun s.silenceRun).1 ∧
      cfg.cooldown < f.now - s.lastPress) := by
    intro hc
    have := (step_fired_iff cfg ts s f).mpr ⟨hb, hc⟩
    rw [hnf] at this
    exact Bool.false_ne_true this
  rw [step_steady cfg ts s f hb, if_neg hc]

lemma allSpeech_append (cfg : Config) :
    ∀ (xs ys : List FrameIn) (b : ℚ),
    allSpeech cfg b (xs ++ ys) =
      (allSpeech cfg b xs && allSpeech cfg (ewmaDb cfg b xs) ys) := by
  intro xs
  induction xs with
  | nil => intro ys b; simp [allSpeech, ewmaDb]
  | cons f xs ih =>
    intro ys b
    show (isSpeech cfg (newBaseline cfg b f.db) f &&
        allSpeech cfg (newBaseline cfg b f.db) (xs ++ ys)) = _
    rw [ih]
    simp [allSpeech, ewmaDb, Bool.and_assoc]

lemma runFrom_speech_accum (cfg : Config) (ts : ℚ) :
    ∀ (fs : List FrameIn) (s : DetState),
    s.haveBaseline = true →
    allSpeech cfg s.baselineDb fs = true →
    s.speechRun + fs.length < cfg.onset →
    (runFrom cfg ts s fs).1 =
      ⟨s.lastPress, s.speechRun + fs.length,
       (if fs.length = 0 then s.silenceRun else 0), true, ewmaDb cfg s.baselineDb fs⟩ ∧
    (runFrom cfg ts s fs).2 = List.replicate fs.length false := by
  intro fs
  induction fs with
  | nil =>
    intro s hb _ _
    refine ⟨?_, rfl⟩
    cases s with
    | mk lp sr si hbf b =>
      simp only [runFrom, List.length_nil, Nat.add_zero, if_pos rfl, ewmaDb, List.foldl_nil]
      cases hbf
      · exact absurd hb (by simp)
      · rfl
  | cons f fs ih =>
    intro s hb hsp hlt
    simp only [allSpeech, Bool.and_eq_true] at hsp
    obtain ⟨hsp1, hsp2⟩ := hsp
    have hsp1' : classify cfg s f = true := hsp1
    have hnc : ¬ (cfg.onset ≤ (updateRuns cfg (classify cfg s f) s.speechRun s.silenceRun).1 ∧
        cfg.cooldown < f.now - s.lastPress) := by
      rintro ⟨hle, -⟩
      rw [hsp1'] at hle
      have hle' : cfg.onset ≤ s.speechRun + 1 := hle
      simp only [List.length_cons] at hlt
      omega
    have hstep : step cfg ts s f =
        ⟨⟨s.lastPress, s.speechRun + 1, 0, true, newBaseline cfg s.baselineDb f.db⟩, false⟩ := by
      rw [step_steady cfg ts s f hb, if_neg hnc, hsp1']
      rfl
    have hrest := ih ⟨s.lastPress, s.speechRun + 1, 0, true, newBaseline cfg s.baselineDb f.db⟩
      rfl hsp2
      (show s.speechRun + 1 + fs.length < cfg.onset by
        simp only [List.length_cons] at hlt; omega)
    rw [runFrom_cons, hstep]
    constructor
    · rw [hrest.1]
      have e1 : s.speechRun + 1 + fs.length = s.speechRun + (f :: fs).length := by
        simp only [List.length_cons]; omega
      have e2 : (if fs.length = 0 then (0:ℕ) else 0) =
          (if (f :: fs).length = 0 then s.silenceRun else 0) := by
        simp only [List.length_cons, ite_self]
        rw [if_neg (by omega : ¬ (fs.length + 1 = 0))]
      have e3 : ewmaDb cfg (newBaseline cfg s.baselineDb f.db) fs =
          ewmaDb cfg s.baselineDb (f :: fs) := rfl
      rw [e1, e2, e3]
    · rw [hrest.2]
      simp [List.replicate_succ]

lemma runFrom_warm (cfg : Config) (ts : ℚ) :
    ∀ (fs : List FrameIn) (s : DetState),
    s.haveBaseline = false →
    (∀ f ∈ fs, f.now - ts < cfg.adapt) →
    (runFrom cfg ts s fs).1 =
      ⟨s.lastPress, s.speechRun, s.silenceRun, false,
       fs.foldl (fun b f => min b f.db) s.baselineDb⟩ ∧
    (runFrom cfg ts s fs).2 = List.replicate fs.length false := by
  intro fs
  induction fs with
  | nil =>
    intro s hb _
    refine ⟨?_, rfl⟩
    cases s with
    | mk lp sr si hbf b =>
      simp only at hb
      rw [hb]
      rfl
  | cons f fs ih =>
    intro s hb h
    have hd : decide (cfg.adapt ≤ f.now - ts) = false :=
      decide_eq_false (not_le.mpr (h f (List.mem_cons_self f fs)))
    have hstep : step cfg ts s f =
        ⟨⟨s.lastPress, s.speechRun, s.silenceRun, false, min s.baselineDb f.db⟩, false⟩ := by
      rw [step_warm cfg ts s f hb, hd]
    have hrest := ih ⟨s.lastPress, s.speechRun, s.silenceRun, false, min s.baselineDb f.db⟩
      rfl (fun g hg => h g (List.mem_cons_of_mem f hg))
    rw [runFrom_cons, hstep]
    refine ⟨by rw [hrest.1]; rfl, ?_⟩
    rw [hrest.2]
    simp [List.replicate_succ]

lemma step_silence (cfg : Config) (ts : ℚ) (s : DetState) (f : FrameIn)
    (hb : s.haveBaseline = true) (hns : classify cfg s f = false) :
    (step cfg ts s f).state.silenceRun = s.silenceRun + 1 ∧
    (step cfg ts s f).state.haveBaseline = true ∧
    (step cfg ts s f).state.baselineDb = newBaseline cfg s.baselineDb f.db := by
  rw [step_steady cfg ts s f hb, hns]
  have hr : updateRuns cfg false s.speechRun s.silenceRun =
      (if cfg.release ≤ s.silenceRun + 1 then 0 else s.speechRun, s.silenceRun + 1) := rfl
  rw [hr]
  by_cases hc : cfg.onset ≤ (if cfg.release ≤ s.silenceRun + 1 then 0 else s.speechRun,
      s.silenceRun + 1).1 ∧ cfg.cooldown < f.now - s.lastPress
  · rw [if_pos hc]
    by_cases hok : f.sinkOk
    · rw [if_pos hok]; exact ⟨rfl, rfl, rfl⟩
    · rw [if_neg hok]; exact ⟨rfl, rfl, rfl⟩
  · rw [if_neg hc]; exact ⟨rfl, rfl, rfl⟩

lemma step_silence_release (cfg : Config) (ts : ℚ) (s : DetState) (f : FrameIn)
    (hb : s.haveBaseline = true) (hns : classify cfg s f = false)
    (hok : f.sinkOk = true) (hrel : cfg.release ≤ s.silenceRun + 1) :
    (step cfg ts s f).state.speechRun = 0 := by
  rw [step_steady cfg ts s f hb, hns]
  have hr : updateRuns cfg false s.speechRun s.silenceRun =
      (if cfg.release ≤ s.silenceRun + 1 then 0 else s.speechRun, s.silenceRun + 1) := rfl
  rw [hr, if_pos hrel]
  by_cases hc : cfg.onset ≤ ((0:ℕ), s.silenceRun + 1).1 ∧ cfg.cooldown < f.now - s.lastPress
  · rw [if_pos hc, hok, if_pos rfl]
  · rw [if_neg hc]

lemma runFrom_silence_reset (cfg : Config) (ts : ℚ) :
    ∀ (fs : List FrameIn) (s : DetState),
    s.haveBaseline = true →
    allSilence cfg s.baselineDb fs = true →
    (∀ f ∈ fs, f.sinkOk = true) →
    0 < fs.length →
    cfg.release ≤ s.silenceRun + fs.length →
    (runFrom cfg ts s fs).1.speechRun = 0 := by
  intro fs
  induction fs with
  | nil => intro s _ _ _ h0 _; exact absurd h0 (by simp)
  | cons f fs ih =>
    intro s hb hsil hok _ hrel
    simp only [allSilence, Bool.and_eq_true, Bool.not_eq_eq_eq_not, Bool.not_true] at hsil
    obtain ⟨hns, hsil2⟩ := hsil
    have hns' : classify cfg s f = false := hns
    cases fs with
    | nil =>
      rw [runFrom_cons]
      simp only [runFrom]
      exact step_silence_release cfg ts s f hb hns' (hok f (List.mem_cons_self f []))
        (by simp only [List.length_cons, List.length_nil] at hrel; omega)
    | cons g gs =>
      rw [runFrom_cons]
      have hproj := step_silence cfg ts s f hb hns'
      refine ih (step cfg ts s f).state hproj.2.1 ?_ ?_ (by simp) ?_
      · rw [hproj.2.2]
        exact hsil2
      · intro x hx
        exact hok x (List.mem_cons_of_mem f hx)
      · rw [hproj.1]
        simp only [List.length_cons] at hrel ⊢
        omega

/-! ## Claim theorems -/

/-- C1: for a frame sequence processed after warm-up in which the speech
classification criteria (`energy_db >= baseline + boost_db` and `zcr` within
`zcr_range`) hold on every frame, starting from `speech_run = 0`, with a
prefix of `onset_frames - 1` frames, the onset frame's trigger not
cooldown-suppressed, and every later frame inside the cooldown of the onset
frame, exactly one trigger is emitted — at the frame where `speech_run`
first reaches `onset_frames` — and `speech_run` is reset to `0` at that
frame. -/
theorem C1_exactly_one_trigger_at_onset (cfg : Config) (ts : ℚ) (s : DetState)
    (pre post : List FrameIn) (ftrig : FrameIn)
    (hb : s.haveBaseline = true) (hsr : s.speechRun = 0)
    (honset : 0 < cfg.onset) (hpre : pre.length = cfg.onset - 1)
    (hsp : allSpeech cfg s.baselineDb (pre ++ ftrig :: post) = true)
    (hok : ∀ f ∈ pre ++ ftrig :: post, f.sinkOk = true)
    (hfire : cfg.cooldown < ftrig.now - s.lastPress)
    (hsupp : ∀ g ∈ post, g.now - ftrig.now ≤ cfg.cooldown) :
    (runFrom cfg ts s (pre ++ ftrig :: post)).2
      = List.replicate (cfg.onset - 1) false ++ true :: List.replicate post.length false
    ∧ (runFrom cfg ts s (pre ++ [ftrig])).1.speechRun = 0 := by
  rw [allSpeech_append, Bool.and_eq_true] at hsp
  obtain ⟨hspPre, hspRest⟩ := hsp
  simp only [allSpeech, Bool.and_eq_true] at hspRest
  obtain ⟨hspF, -⟩ := hspRest
  have hlt : s.speechRun + pre.length < cfg.onset := by rw [hsr, hpre]; omega
  have hacc := runFrom_speech_accum cfg ts pre s hb hspPre hlt
  set sMid : DetState :=
    ⟨s.lastPress, s.speechRun + pre.length,
     (if pre.length = 0 then s.silenceRun else 0), true,
     ewmaDb cfg s.baselineDb pre⟩ with hsMid
  have hclf : classify cfg sMid ftrig = true := hspF
  have hons : cfg.onset ≤ sMid.speechRun + 1 := by
    show cfg.onset ≤ s.speechRun + pre.length + 1
    rw [hsr, hpre]; omega
  have hcd : cfg.cooldown < ftrig.now - sMid.lastPress := hfire
  have hokF : ftrig.sinkOk = true :=
    hok ftrig (List.mem_append_right pre (List.mem_cons_self ftrig post))
  have hstepF := step_fire cfg ts sMid ftrig rfl hclf hons hcd hokF
  have hstate : (step cfg ts sMid ftrig).state =
      ⟨ftrig.now, 0, 0, true, newBaseline cfg sMid.baselineDb ftrig.db⟩ := by
    rw [hstepF]
  have hfired : (step cfg ts sMid ftrig).fired = true := by rw [hstepF]
  have hpost := runFrom_no_fire cfg ts post
    ⟨ftrig.now, 0, 0, true, newBaseline cfg sMid.baselineDb ftrig.db⟩
    (fun g hg => hsupp g hg)
  constructor
  · rw [runFrom_append]
    simp only [hacc.1, hacc.2, runFrom_cons, hstate, hfired, hpost.2, hpre]
  · rw [runFrom_append]
    simp only [hacc.1, runFrom_cons, hstate, runFrom_nil]

/-- Witness for C1: a concrete post-warm-up run — three speech frames, the
onset frame at `t = 2.9` (cooldown from `last_press = 0` expired), and two
more speech frames inside the new cooldown — attempts exactly one delivery,
at the onset frame, and `speech_run` is `0` right after it. -/
theorem C1_exactly_one_trigger_at_onset_witness :
    postWarmState.haveBaseline = true ∧ postWarmState.speechRun = 0 ∧
    0 < defaultConfig.onset ∧ w1Pre.length = defaultConfig.onset - 1 ∧
    allSpeech defaultConfig postWarmState.baselineDb (w1Pre ++ w1Trig :: w1Post) = true ∧
    (∀ f ∈ w1Pre ++ w1Trig :: w1Post, f.sinkOk = true) ∧
    defaultConfig.cooldown < w1Trig.now - postWarmState.lastPress ∧
    (∀ g ∈ w1Post, g.now - w1Trig.now ≤ defaultConfig.cooldown) ∧
    ((runFrom defaultConfig 0 postWarmState (w1Pre ++ w1Trig :: w1Post)).2
        = List.replicate (defaultConfig.onset - 1) false ++
            true :: List.replicate w1Post.length false
      ∧ (runFrom defaultConfig 0 postWarmState (w1Pre ++ [w1Trig])).1.speechRun = 0) :=
  ⟨by with_unfolding_all decide, by with_unfolding_all decide,
   by with_unfolding_all decide, by with_unfolding_all decide,
   by with_unfolding_all decide, by with_unfolding_all decide,
   by with_unfolding_all decide, by with_unfolding_all decide,
   C1_exactly_one_trigger_at_onset defaultConfig 0 postWarmState w1Pre w1Post w1Trig
     (by with_unfolding_all decide) (by with_unfolding_all decide)
     (by with_unfolding_all decide) (by with_unfolding_all decide)
     (by with_unfolding_all decide) (by with_unfolding_all decide)
     (by with_unfolding_all decide) (by with_unfolding_all decide)⟩

/-- C2: once a trigger has been delivered at a frame `f` (so `last_press`
became `f.now`), no frame whose time is within `cooldown_seconds` of `f.now`
attempts another trigger, even if every intervening frame is classified as
speech; and any frame that does attempt a trigger satisfies both onset
conditions: the updated `speech_run` has reached `onset_frames` and more
than `cooldown_seconds` have passed since `last_press`. -/
theorem C2_cooldown_suppression (cfg : Config) (ts : ℚ) :
    (∀ (s : DetState) (f : FrameIn) (fs : List FrameIn),
      (step cfg ts s f).fired = true → f.sinkOk = true →
      (∀ g ∈ fs, g.now - f.now ≤ cfg.cooldown) →
      (runFrom cfg ts (step cfg ts s f).state fs).2 = List.replicate fs.length false)
    ∧ (∀ (s : DetState) (f : FrameIn),
      (step cfg ts s f).fired = true →
      cfg.cooldown < f.now - s.lastPress ∧
      cfg.onset ≤ (updateRuns cfg (classify cfg s f) s.speechRun s.silenceRun).1) := by
  constructor
  · intro s f fs hf hok hin
    have hlp := (step_fired_ok_lastPress cfg ts s f hf hok).1
    exact (runFrom_no_fire cfg ts fs (step cfg ts s f).state
      (fun g hg => by rw [hlp]; exact hin g hg)).2
  · intro s f hf
    obtain ⟨-, hons, hcd⟩ := (step_fired_iff cfg ts s f).mp hf
    exact ⟨hcd, hons⟩

/-- Witness for C2: a trigger fired at `t = 3` from a three-speech-frame
state; two loud speech frames at `t = 3.1` and `t = 5.5` (both within the
`2.5` s cooldown of `t = 3`) attempt nothing, and the firing frame indeed
satisfied both onset conditions. -/
theorem C2_cooldown_suppression_witness :
    (step defaultConfig 0 accum3State fireFrame).fired = true ∧
    fireFrame.sinkOk = true ∧
    (∀ g ∈ w2Post, g.now - fireFrame.now ≤ defaultConfig.cooldown) ∧
    (runFrom defaultConfig 0 (step defaultConfig 0 accum3State fireFrame).state w2Post).2
      = List.replicate w2Post.length false ∧
    (defaultConfig.cooldown < fireFrame.now - accum3State.lastPress ∧
     defaultConfig.onset ≤ (updateRuns defaultConfig
        (classify defaultConfig accum3State fireFrame)
        accum3State.speechRun accum3State.silenceRun).1) :=
  ⟨by with_unfolding_all decide, by with_unfolding_all decide,
   by with_unfolding_all decide,
   (C2_cooldown_suppression defaultConfig 0).1 accum3State fireFrame w2Post
     (by with_unfolding_all decide) (by with_unfolding_all decide)
     (by with_unfolding_all decide),
   (C2_cooldown_suppression defaultConfig 0).2 accum3State fireFrame
     (by with_unfolding_all decide)⟩

/-- C3: while the baseline tracker is still warming up (`have_baseline`
false, every frame earlier than `ADAPT_SECS` after pipeline start), no
trigger is attempted on any frame, regardless of the frames' features. -/
theorem C3_no_trigger_during_warmup (cfg : Config) (ts : ℚ) (s : DetState)
    (fs : List FrameIn)
    (hb : s.haveBaseline = false)
    (helapsed : ∀ f ∈ fs, f.now - ts < cfg.adapt) :
    (runFrom cfg ts s fs).2 = List.replicate fs.length false ∧
    (runFrom cfg ts s fs).1.haveBaseline = false :=
  ⟨(runFrom_warm cfg ts fs s hb helapsed).2,
   by rw [(runFrom_warm cfg ts fs s hb helapsed).1]⟩

/-- Witness for C3: three warm-up frames — one of them at `0` dB, far above
the baseline — attempt no trigger, and warm-up is still in effect after. -/
theorem C3_no_trigger_during_warmup_witness :
    initState.haveBaseline = false ∧
    (∀ f ∈ warmFrames, f.now - 0 < defaultConfig.adapt) ∧
    ((runFrom defaultConfig 0 initState warmFrames).2
        = List.replicate warmFrames.length false ∧
     (runFrom defaultConfig 0 initState warmFrames).1.haveBaseline = false) :=
  ⟨by with_unfolding_all decide, by with_unfolding_all decide,
   C3_no_trigger_during_warmup defaultConfig 0 initState warmFrames
     (by with_unfolding_all decide) (by with_unfolding_all decide)⟩

/-- C4 counterexample: a frame that attempts a trigger delivery whose key
press raises (`sinkOk = false`).  The claim says `last_trigger_time` is
still set to the trigger time and `speech_run` is still reset to `0`; in the
code both updates sit after the key-press call inside the `try`, so neither
happens: `last_press` stays `0` (not `10`) and `speech_run` becomes `4`
(not `0`). -/
theorem C4_sink_failure_counterexample :
    (step defaultConfig 0 accum3State failFrame).fired = true ∧
    (step defaultConfig 0 accum3State failFrame).state.lastPress ≠ failFrame.now ∧
    (step defaultConfig 0 accum3State failFrame).state.speechRun ≠ 0 := by
  refine ⟨?_, ?_, ?_⟩ <;> with_unfolding_all decide

/-- C4 amended: when the sink fails on a trigger delivery, detection
continues, but the success-path state update is skipped — `last_press`
keeps its previous value and `speech_run` keeps the value produced by the
normal run-counter update (it is not reset to `0`) — so the failed trigger
starts no cooldown and is re-attempted on the next qualifying frame. -/
theorem C4_sink_failure_amended (cfg : Config) (ts : ℚ) (s : DetState) (f : FrameIn)
    (hb : s.haveBaseline = true) (hko : f.sinkOk = false) :
    (step cfg ts s f).state.lastPress = s.lastPress ∧
    (step cfg ts s f).state.speechRun =
      (updateRuns cfg (classify cfg s f) s.speechRun s.silenceRun).1 ∧
    (step cfg ts s f).state.silenceRun =
      (updateRuns cfg (classify cfg s f) s.speechRun s.silenceRun).2 := by
  rw [step_sink_fail cfg ts s f hb hko]
  exact ⟨rfl, rfl, rfl⟩

/-- Witness for the amended C4, at the concrete failing delivery of the
counterexample: the failed trigger leaves `last_press` at `0` and
`speech_run` at the counter-updated value `4`. -/
theorem C4_sink_failure_amended_witness :
    accum3State.haveBaseline = true ∧ failFrame.sinkOk = false ∧
    ((step defaultConfig 0 accum3State failFrame).state.lastPress = accum3State.lastPress ∧
     (step defaultConfig 0 accum3State failFrame).state.speechRun =
       (updateRuns defaultConfig (classify defaultConfig accum3State failFrame)
         accum3State.speechRun accum3State.silenceRun).1 ∧
     (step defaultConfig 0 accum3State failFrame).state.silenceRun =
       (updateRuns defaultConfig (classify defaultConfig accum3State failFrame)
         accum3State.speechRun accum3State.silenceRun).2) :=
  ⟨by with_unfolding_all decide, by with_unfolding_all decide,
   C4_sink_failure_amended defaultConfig 0 accum3State failFrame
     (by with_unfolding_all decide) (by with_unfolding_all decide)⟩

/-- C5 counterexample: in the concrete run `cexFrames` (post warm-up from
frame 2 on), frames 2-6 are speech, frame 7 is a single quiet dropout
inside the otherwise continuous speech run (frame 8 is speech again), and
`release_frames = 8 > 1`.  The claim says the single non-speech frame
leaves `speech_run` unchanged; in fact `speech_run` is `5` before frame 7
and `0` after it, because the trigger check fires at that very frame (the
cooldown expires there) and resets `speech_run`. -/
theorem C5_single_dropout_counterexample :
    (runFrom defaultConfig 0 initState (cexFrames.take 7)).1.haveBaseline = true ∧
    (runFrom defaultConfig 0 initState (cexFrames.take 7)).1.speechRun = 5 ∧
    (runFrom defaultConfig 0 initState (cexFrames.take 7)).1.silenceRun = 0 ∧
    classify defaultConfig (runFrom defaultConfig 0 initState (cexFrames.take 7)).1
      (cexFrames.get ⟨7, by with_unfolding_all decide⟩) = false ∧
    classify defaultConfig (runFrom defaultConfig 0 initState (cexFrames.take 6)).1
      (cexFrames.get ⟨6, by with_unfolding_all decide⟩) = true ∧
    classify defaultConfig (runFrom defaultConfig 0 initState (cexFrames.take 8)).1
      (cexFrames.get ⟨8, by with_unfolding_all decide⟩) = true ∧
    1 < defaultConfig.release ∧
    (runFrom defaultConfig 0 initState (cexFrames.take 8)).1.speechRun = 0 := by
  refine ⟨?_, ?_, ?_, ?_, ?_, ?_, ?_, ?_⟩ <;> with_unfolding_all decide

/-- C5 amended: a single non-speech frame inside an otherwise continuous
speech run (so `silence_run = 0` before it) leaves `speech_run` unchanged
provided `release_frames > 1` and no trigger fires at that frame; and
`release_frames` consecutive non-speech frames (all deliveries succeeding)
drive `speech_run` to `0`. -/
theorem C5_debounce_amended (cfg : Config) (ts : ℚ) :
    (∀ (s : DetState) (f : FrameIn),
      s.haveBaseline = true → s.silenceRun = 0 → 1 < cfg.release →
      classify cfg s f = false → (step cfg ts s f).fired = false →
      (step cfg ts s f).state.speechRun = s.speechRun)
    ∧ (∀ (s : DetState) (fs : List FrameIn),
      s.haveBaseline = true →
      allSilence cfg s.baselineDb fs = true →
      (∀ f ∈ fs, f.sinkOk = true) →
      cfg.release ≤ fs.length → 0 < fs.length →
      (runFrom cfg ts s fs).1.speechRun = 0) := by
  constructor
  · intro s f hb hsil hrel hns hnf
    rw [step_no_fire_state cfg ts s f hb hnf, hns, hsil]
    show (if cfg.release ≤ 0 + 1 then 0 else s.speechRun) = s.speechRun
    rw [if_neg (by omega)]
  · intro s fs hb hsil hok hrel h0
    exact runFrom_silence_reset cfg ts fs s hb hsil hok h0 (by omega)

/-- Witness for the amended C5: a single quiet frame from a mid-utterance
state (three speech frames accumulated, cooldown still active so no trigger
can fire) keeps `speech_run = 3`; and eight (`RELEASE_FRAMES`) consecutive
quiet frames from a five-speech-frame state drive `speech_run` to `0`. -/
theorem C5_debounce_amended_witness :
    accum3State.haveBaseline = true ∧ accum3State.silenceRun = 0 ∧
    1 < defaultConfig.release ∧
    classify defaultConfig accum3State quietFrame = false ∧
    (step defaultConfig 0 accum3State quietFrame).fired = false ∧
    (step defaultConfig 0 accum3State quietFrame).state.speechRun = accum3State.speechRun ∧
    (accum5State.haveBaseline = true ∧
     allSilence defaultConfig accum5State.baselineDb quietRun = true ∧
     (∀ f ∈ quietRun, f.sinkOk = true) ∧
     defaultConfig.release ≤ quietRun.length ∧ 0 < quietRun.length ∧
     (runFrom defaultConfig 0 accum5State quietRun).1.speechRun = 0) :=
  ⟨by with_unfolding_all decide, by with_unfolding_all decide,
   by with_unfolding_all decide, by with_unfolding_all decide,
   by with_unfolding_all decide,
   (C5_debounce_amended defaultConfig 0).1 accum3State quietFrame
     (by with_unfolding_all decide) (by with_unfolding_all decide)
     (by with_unfolding_all decide) (by with_unfolding_all decide)
     (by with_unfolding_all decide),
   by with_unfolding_all decide, by with_unfolding_all decide,
   by with_unfolding_all decide, by with_unfolding_all decide,
   by with_unfolding_all decide,
   (C5_debounce_amended defaultConfig 0).2 accum5State quietRun
     (by with_unfolding_all decide) (by with_unfolding_all decide)
     (by with_unfolding_all decide) (by with_unfolding_all decide)
     (by with_unfolding_all decide)⟩

/-- C10: a trigger can be emitted on a frame that is itself classified
non-speech.  In the concrete run `cexFrames` — a sustained speech run built
up while the initial cooldown is still active, then a single quiet dropout
at `t = 2.6`, exactly when the cooldown expires — the one delivery of the
whole run happens at frame 7, which is classified non-speech against the
then-current baseline, while the detector is past warm-up. -/
theorem C10_trigger_on_nonspeech_frame :
    (runFrom defaultConfig 0 initState cexFrames).2
      = [false, false, false, false, false, false, false, true, false] ∧
    classify defaultConfig (runFrom defaultConfig 0 initState (cexFrames.take 7)).1
      (cexFrames.get ⟨7, by with_unfolding_all decide⟩) = false ∧
    (runFrom defaultConfig 0 initState (cexFrames.take 7)).1.haveBaseline = true := by
  refine ⟨?_, ?_, ?_⟩ <;> with_unfolding_all decide

lemma chunkGo_flatten (n : ℕ) (hn : 0 < n) :
    ∀ (fuel : ℕ) (data : List ℤ), data.length ≤ fuel →
    (chunkGo n fuel data).flatten = data.take (n * (data.length / n)) := by
  intro fuel
  induction fuel with
  | zero =>
    intro data h
    have hdata : data = [] := List.eq_nil_of_length_eq_zero (by omega)
    subst hdata
    simp [chunkGo]
  | succ fuel ih =>
    intro data h
    by_cases hc : 0 < n ∧ n ≤ data.length
    · have hstep : chunkGo n (fuel + 1) data = data.take n :: chunkGo n fuel (data.drop n) := by
        simp only [chunkGo, if_pos hc]
      rw [hstep]
      have hdroplen : (data.drop n).length = data.length - n := List.length_drop n data
      have hrec := ih (data.drop n) (by omega)
      simp only [List.flatten_cons, hrec, hdroplen]
      have hdiv : data.length / n = (data.length - n) / n + 1 :=
        Nat.div_eq_sub_div hn hc.2
      rw [hdiv, Nat.mul_add, Nat.mul_one, Nat.add_comm (n * ((data.length - n) / n)) n,
        List.take_add]
    · have hstep : chunkGo n (fuel + 1) data = [] := by
        simp only [chunkGo, if_neg hc]
      rw [hstep]
      have hlt : data.length < n := by
        rcases Nat.lt_or_ge data.length n with hlt | hge
        · exact hlt
        · exact absurd ⟨hn, hge⟩ hc
      rw [Nat.div_eq_of_lt hlt, Nat.mul_zero, List.take_zero]
      rfl

lemma chunkGo_frame_length (n : ℕ) :
    ∀ (fuel : ℕ) (data : List ℤ), ∀ fr ∈ chunkGo n fuel data, fr.length = n := by
  intro fuel
  induction fuel with
  | zero => intro data fr hfr; exact absurd hfr (by simp [chunkGo])
  | succ fuel ih =>
    intro data fr hfr
    by_cases hc : 0 < n ∧ n ≤ data.length
    · rw [show chunkGo n (fuel + 1) data = data.take n :: chunkGo n fuel (data.drop n) from
        by simp only [chunkGo, if_pos hc]] at hfr
      rcases List.mem_cons.mp hfr with hfr | hfr
      · rw [hfr]
        exact List.length_take_of_le hc.2
      · exact ih (data.drop n) fr hfr
    · rw [show chunkGo n (fuel + 1) data = [] from by simp only [chunkGo, if_neg hc]] at hfr
      exact absurd hfr (by simp)

/-- C6: the claim says the bandpass filter's delay-line state is carried
across frames, so a frame's filtered output depends on the state left by
previous frames.  In the code, `bandpass` is a bare `lfilter(B, A, x)` call
that starts from an all-zero delay line every time: with demonstration
coefficients `b = [1, 0]`, `a = [1, 1/2]`, the second frame `[0]` filters to
`[0]` whether the first frame was `[1]` or `[5]`, while the spec-mandated
stateful filter yields `[-1/2]` for the same second frame.  The spec itself
flags the code's per-frame zero state as an unintended boundary artifact, so
this is recorded as a defect of the code against the specified design. -/
theorem C6_filter_state_not_carried :
    framesFiltered [1, 0] [1, 1/2] [[1], [0]] = [[1], [0]] ∧
    framesFiltered [1, 0] [1, 1/2] [[5], [0]] = [[5], [0]] ∧
    framesFilteredStateful [1, 0] [1, 1/2] [[1], [0]] = [[1], [-1/2]] ∧
    ([0] : List ℚ) ≠ [-1/2] := by
  refine ⟨?_, ?_, ?_, ?_⟩ <;> with_unfolding_all decide

/-- C7 counterexample: with `BLOCK = 480`, a block of `481` samples followed
by a block of `480` samples (`961` source samples in all) is chunked into
frames holding only `960` samples — the trailing sample of the first block
is dropped, and the second block's single frame is exactly its own `480`
samples, with nothing prefixed from the previous block's leftover. -/
theorem C7_leftover_tail_counterexample :
    (([List.replicate 481 (7:ℤ), List.replicate 480 (0:ℤ)].map
        (chunkFrames BLOCK)).flatten.flatten).length = 960 ∧
    ([List.replicate 481 (7:ℤ), List.replicate 480 (0:ℤ)].map List.length).sum = 961 ∧
    chunkFrames BLOCK (List.replicate 480 (0:ℤ)) = [List.replicate 480 (0:ℤ)] := by
  refine ⟨?_, ?_, ?_⟩ <;> with_unfolding_all decide

/-- C7 amended: the chunking step of each block processes exactly the first
`n * (len / n)` samples of that block in order — every produced frame has
exactly the frame length, and the trailing remainder shorter than one frame
is dropped, not retained for the next block. -/
theorem C7_chunking_amended (n : ℕ) (data : List ℤ) (hn : 0 < n) :
    (chunkFrames n data).flatten = data.take (n * (data.length / n)) ∧
    ∀ fr ∈ chunkFrames n data, fr.length = n :=
  ⟨chunkGo_flatten n hn data.length data le_rfl,
   chunkGo_frame_length n data.length data⟩

/-- Witness for the amended C7 at the counterexample's first block: chunking
`481` samples with `BLOCK = 480` keeps exactly the first `480` samples, in
one full-length frame. -/
theorem C7_chunking_amended_witness :
    0 < BLOCK ∧
    ((chunkFrames BLOCK (List.replicate 481 (7:ℤ))).flatten
        = (List.replicate 481 (7:ℤ)).take
            (BLOCK * ((List.replicate 481 (7:ℤ)).length / BLOCK)) ∧
     ∀ fr ∈ chunkFrames BLOCK (List.replicate 481 (7:ℤ)), fr.length = BLOCK) :=
  ⟨by with_unfolding_all decide,
   C7_chunking_amended BLOCK (List.replicate 481 (7:ℤ)) (by with_unfolding_all decide)⟩

/-- C8 counterexample: one loud warm-up frame (`0` dB at `t = 1`).  The
running minimum of the observed `energy_db` values is `0`, but the baseline
after the frame is `min(-60, 0) = -60`: the initial `-60` dB value is folded
into the minimum, so the baseline does not equal the running minimum of the
observed values. -/
theorem C8_warmup_baseline_counterexample :
    (runFrom defaultConfig 0 initState [loudWarmFrame]).1.haveBaseline = false ∧
    loudWarmFrame.db = 0 ∧
    (runFrom defaultConfig 0 initState [loudWarmFrame]).1.baselineDb = -60 ∧
    (runFrom defaultConfig 0 initState [loudWarmFrame]).1.baselineDb ≠ loudWarmFrame.db := by
  refine ⟨?_, ?_, ?_, ?_⟩ <;> with_unfolding_all decide

/-- C8 amended: after any prefix of warm-up frames (all earlier than the
adaptation window), the baseline equals the running minimum folded over the
observed `energy_db` values starting from the initial conservative `-60` dB
value — the minimum of the initial value and the quietest frame seen so
far. -/
theorem C8_warmup_baseline_amended (cfg : Config) (ts : ℚ) (fs : List FrameIn)
    (s : DetState)
    (hb : s.haveBaseline = false)
    (helapsed : ∀ f ∈ fs, f.now - ts < cfg.adapt) :
    (runFrom cfg ts s fs).1.baselineDb =
      fs.foldl (fun b f => min b f.db) s.baselineDb := by
  rw [(runFrom_warm cfg ts fs s hb helapsed).1]

/-- Witness for the amended C8: over the three concrete warm-up frames the
final baseline is the fold of `min` over `-60, -70, 0, -65`, i.e. `-70`. -/
theorem C8_warmup_baseline_amended_witness :
    initState.haveBaseline = false ∧
    (∀ f ∈ warmFrames, f.now - 0 < defaultConfig.adapt) ∧
    (runFrom defaultConfig 0 initState warmFrames).1.baselineDb =
      warmFrames.foldl (fun b f => min b f.db) initState.baselineDb ∧
    (runFrom defaultConfig 0 initState warmFrames).1.baselineDb = -70 :=
  ⟨by with_unfolding_all decide, by with_unfolding_all decide,
   C8_warmup_baseline_amended defaultConfig 0 warmFrames initState
     (by with_unfolding_all decide) (by with_unfolding_all decide),
   by with_unfolding_all decide⟩

lemma count_zip_sign : ∀ (xs ys : List ℚ),
    (List.zipWith (fun a b => decide (npSign a ≠ npSign b)) xs ys).count true
      = (xs.zip ys).countP (fun p => decide (npSign p.1 ≠ npSign p.2)) := by
  intro xs
  induction xs with
  | nil => intro ys; rfl
  | cons x xs ih =>
    intro ys
    cases ys with
    | nil => rfl
    | cons y ys =>
      simp only [List.zipWith_cons_cons, List.zip_cons_cons, List.count_cons,
        List.countP_cons, ih, beq_iff_eq]

lemma zcr_count_le (xs : List ℚ) :
    (List.zipWith (fun a b => decide (npSign a ≠ npSign b)) xs xs.tail).count true
      ≤ xs.length - 1 := by
  calc (List.zipWith (fun a b => decide (npSign a ≠ npSign b)) xs xs.tail).count true
      ≤ (List.zipWith (fun a b => decide (npSign a ≠ npSign b)) xs xs.tail).length :=
        List.count_le_length true _
    _ = min xs.length xs.tail.length := List.length_zipWith _ xs xs.tail
    _ ≤ xs.tail.length := Nat.min_le_right _ _
    _ = xs.length - 1 := List.length_tail xs

/-- C9 counterexample: the filtered frame `[0, 1]` — reachable, since a
frame whose first sample is `0` filters (from the zero delay line) to a
frame whose first sample is exactly `0`.  The code's `np.sign` gives the
pair signs `0` and `1`, which differ, so the computed rate is `1`; under the
claim's convention (sign of `0` grouped with the positives) the pair does
not differ and the fraction is `0`. -/
theorem C9_zcr_sign_counterexample :
    zcrOf [0, 1] = 1 ∧ zcrSpecNonneg [0, 1] = 0 ∧ (1 : ℚ) ≠ 0 := by
  refine ⟨?_, ?_, ?_⟩ <;> with_unfolding_all decide

/-- C9 amended: for every filtered frame the zero-crossing-rate feature
equals the fraction of adjacent sample pairs whose three-valued signs
(`-1` / `0` / `1`, with an exactly-zero sample its own sign class, so a
zero-to-nonzero transition counts as a sign change) differ, and the value
always lies in `[0, 1]`. -/
theorem C9_zcr_amended (xs : List ℚ) :
    zcrOf xs = zcrSpecThreeValued xs ∧ 0 ≤ zcrOf xs ∧ zcrOf xs ≤ 1 := by
  refine ⟨?_, ?_, ?_⟩
  · unfold zcrOf zcrSpecThreeValued
    rw [count_zip_sign xs xs.tail]
  · unfold zcrOf
    by_cases h : 1 < xs.length
    · rw [if_pos h]
      have hd : (0:ℚ) < (xs.length : ℚ) - 1 := by
        have : (2:ℚ) ≤ (xs.length : ℚ) := by exact_mod_cast h
        linarith
      exact div_nonneg (Nat.cast_nonneg _) (le_of_lt hd)
    · rw [if_neg h]
  · unfold zcrOf
    by_cases h : 1 < xs.length
    · rw [if_pos h]
      have hd : (0:ℚ) < (xs.length : ℚ) - 1 := by
        have : (2:ℚ) ≤ (xs.length : ℚ) := by exact_mod_cast h
        linarith
      rw [div_le_one hd]
      have hle := zcr_count_le xs
      calc ((List.zipWith (fun a b => decide (npSign a ≠ npSign b)) xs xs.tail).count true : ℚ)
          ≤ ((xs.length - 1 : ℕ) : ℚ) := by exact_mod_cast hle
        _ = (xs.length : ℚ) - 1 := by
            rw [Nat.cast_sub (by omega : 1 ≤ xs.length)]
            simp
    · rw [if_neg h]
      exact zero_le_one

end PauseOnVoice
